import Mathlib

/-!
Shallow embedding of the rendering tutorials in `alexniver/learnwgpu`,
covering the animated-transform pipeline of `t006-coord`, the render loops of
`t02-triangle` and `t04-texture`, and the surrounding event handling.
`f32` scalars are modelled as real numbers; the serialized form of an `f32`
is modelled as its 32-bit pattern (a natural number below `2 ^ 32`).
-/

open Real

/-- Model of `glam::Vec3`, the 3-component vector used for translation, scale and
rotation axes in `t006-coord`. -/
structure Vec3 where
  x : ℝ
  y : ℝ
  z : ℝ

/-- Model of `glam::Vec3::ZERO`. -/
def Vec3.ZERO : Vec3 := ⟨0, 0, 0⟩

/-- Model of `glam::Vec3::ONE`. -/
def Vec3.ONE : Vec3 := ⟨1, 1, 1⟩

/-- Model of `glam::Vec3::X`, the fixed rotation axis used by `Transform::rotate_x`. -/
def Vec3.X : Vec3 := ⟨1, 0, 0⟩

/-- Model of `glam::Vec3::splat(v)`. -/
def Vec3.splat (v : ℝ) : Vec3 := ⟨v, v, v⟩

/-- Model of `glam::Quat`, stored as `(x, y, z, w)` exactly as in glam. -/
structure Quat where
  x : ℝ
  y : ℝ
  z : ℝ
  w : ℝ

/-- Model of `glam::Quat::IDENTITY`. -/
def Quat.IDENTITY : Quat := ⟨0, 0, 0, 1⟩

/-- The Hamilton product implemented by glam's `Mul for Quat`
(`mul_quat`). -/
def Quat.mul (a b : Quat) : Quat :=
  ⟨a.w * b.x + a.x * b.w + a.y * b.z - a.z * b.y,
   a.w * b.y - a.x * b.z + a.y * b.w + a.z * b.x,
   a.w * b.z + a.x * b.y - a.y * b.x + a.z * b.w,
   a.w * b.w - a.x * b.x - a.y * b.y - a.z * b.z⟩

/-- Model of `glam::Quat::from_axis_angle(axis, angle)`: the half-angle quaternion
`(axis * sin(angle/2), cos(angle/2))` for a unit `axis`. -/
noncomputable def Quat.from_axis_angle (axis : Vec3) (angle : ℝ) : Quat :=
  ⟨axis.x * Real.sin (angle / 2),
   axis.y * Real.sin (angle / 2),
   axis.z * Real.sin (angle / 2),
   Real.cos (angle / 2)⟩

/-- The `Transform` struct of `t006-coord/src/main.rs`:
translation, rotation quaternion, and scale. -/
structure Transform where
  translation : Vec3
  rotation : Quat
  scale : Vec3

/-- Model of `Transform::new()`: the identity transform. -/
def Transform.new : Transform :=
  { translation := Vec3.ZERO, rotation := Quat.IDENTITY, scale := Vec3.ONE }

/-- Model of `Transform::rotate(&self, axis, radius)`: multiplies the axis-angle
quaternion into the current rotation on the right and returns a new value;
the other fields are copied unchanged (`..*self`). -/
noncomputable def Transform.rotate (t : Transform) (axis : Vec3) (radius : ℝ) :
    Transform :=
  { t with rotation := t.rotation.mul (Quat.from_axis_angle axis radius) }

/-- Model of `Transform::rotate_x(&self, radius)`. -/
noncomputable def Transform.rotate_x (t : Transform) (radius : ℝ) : Transform :=
  t.rotate Vec3.X radius

/-- Model of `Transform::set_scale(&self, scale)`: replaces the scale with
`Vec3::splat(scale)`; other fields copied unchanged. -/
def Transform.set_scale (t : Transform) (scale : ℝ) : Transform :=
  { t with scale := Vec3.splat scale }

/-- Model of `Transform::add_translate(&self, tran_val)`: adds `tran_val` to the
`x` and `y` components of the translation, keeps `z`, and copies the other
fields unchanged (`..*self`). -/
def Transform.add_translate (t : Transform) (tran_val : ℝ) : Transform :=
  { t with
    translation :=
      ⟨t.translation.x + tran_val, t.translation.y + tran_val,
       t.translation.z⟩ }

/-- One `RedrawRequested` tick of the `t006-coord` animator
(`run`, the three `transform = ...` statements):
`transform.rotate_x(delta_time)`, then
`.add_translate(game_time.cos() / 100.)`, then
`.set_scale(game_time.sin().max(0.1))`. -/
noncomputable def tick (t : Transform) (game_time delta_time : ℝ) : Transform :=
  ((t.rotate_x delta_time).add_translate
      (Real.cos game_time / 100)).set_scale (max (Real.sin game_time) 0.1)

/-- C10: For every `Transform` and value `v`, `add_translate v` increases the
translation `x` and `y` components by `v`, keeps the translation `z`, the
rotation and the scale unchanged, and being a pure function of the receiver
it does not mutate it. -/
theorem add_translate_effect (t : Transform) (v : ℝ) :
    (t.add_translate v).translation.x = t.translation.x + v ∧
    (t.add_translate v).translation.y = t.translation.y + v ∧
    (t.add_translate v).translation.z = t.translation.z ∧
    (t.add_translate v).rotation = t.rotation ∧
    (t.add_translate v).scale = t.scale := by
  refine ⟨rfl, rfl, rfl, rfl, rfl⟩

/-- C4: On every redraw tick with elapsed time `elapsed` and delta `delta`, the
new Transform has: rotation equal to the previous rotation multiplied by the
axis-angle quaternion for `delta` radians about the fixed X axis (accumulated,
not reset); translation equal to the previous translation with
`cos(elapsed)/100` added to its `x` and `y` components (accumulating drift);
and scale set absolutely to `splat (max (sin elapsed) 0.1)`. -/
theorem tick_update_rule (t : Transform) (elapsed delta : ℝ) :
    (tick t elapsed delta).rotation =
      t.rotation.mul (Quat.from_axis_angle Vec3.X delta) ∧
    (tick t elapsed delta).translation =
      ⟨t.translation.x + Real.cos elapsed / 100,
       t.translation.y + Real.cos elapsed / 100, t.translation.z⟩ ∧
    (tick t elapsed delta).scale = Vec3.splat (max (Real.sin elapsed) 0.1) := by
  refine ⟨rfl, rfl, rfl⟩

/-- C3: For every elapsed time `t ≥ 0` and every animator state, the scale
produced by the per-tick update is `splat (max (sin t) 0.1)`, hence every
coordinate of the scale is at least `0.1`. -/
theorem tick_scale_clamped (tr : Transform) (t delta : ℝ) (ht : 0 ≤ t) :
    (tick tr t delta).scale = Vec3.splat (max (Real.sin t) 0.1) ∧
    0.1 ≤ (tick tr t delta).scale.x ∧
    0.1 ≤ (tick tr t delta).scale.y ∧
    0.1 ≤ (tick tr t delta).scale.z := by
  refine ⟨rfl, ?_, ?_, ?_⟩ <;>
    simpa [tick, Transform.set_scale, Vec3.splat] using
      le_max_right (Real.sin t) (0.1 : ℝ)

/-- Witness for `tick_scale_clamped` at `t = 0`, `delta = 0`, starting from
the identity transform. -/
theorem tick_scale_clamped_witness :
    (0 : ℝ) ≤ 0 ∧
    ((tick Transform.new 0 0).scale = Vec3.splat (max (Real.sin 0) 0.1) ∧
     0.1 ≤ (tick Transform.new 0 0).scale.x ∧
     0.1 ≤ (tick Transform.new 0 0).scale.y ∧
     0.1 ≤ (tick Transform.new 0 0).scale.z) :=
  ⟨le_refl 0, tick_scale_clamped Transform.new 0 0 (le_refl 0)⟩

/-! ## Render loop: frame acquisition (C1) -/

/-- Model of `wgpu::SurfaceError`, the error type of `Surface::get_current_texture`. -/
inductive SurfaceError where
  | timeout
  | outdated
  | lost
  | outOfMemory
  deriving DecidableEq

/-- Outcome of one `RedrawRequested` arm of the event loop, as far as frame
acquisition is concerned. -/
inductive TickOutcome where
  | presented
  | skippedRedrawRequested
  | panicked (msg : String)
  deriving DecidableEq

/-- The frame-acquisition step of the `RedrawRequested` arm, shared verbatim by
`t02-triangle` (`run_v1`/`run_v2`/`run_v3`), `t04-texture` and `t006-coord`:
`surface.get_current_texture().expect("Fail to request next swap chain texture")`.
`Result::expect` renders the frame on `Ok` and panics with the given message on
any `Err`, terminating the process. -/
def redrawTick (acquired : Except SurfaceError Unit) : TickOutcome :=
  match acquired with
  | .ok _ => .presented
  | .error _ => .panicked ("Fail to request next swap chain texture")

/-- Counterexample to C1 as stated: when frame acquisition fails with the
transient `SurfaceLost` error, the render loop does not skip the tick and
request another redraw; it panics, terminating the process. -/
theorem redrawTick_lost_panics :
    redrawTick (.error SurfaceError.lost) ≠ TickOutcome.skippedRedrawRequested ∧
    redrawTick (.error SurfaceError.lost) =
      TickOutcome.panicked ("Fail to request next swap chain texture") := by
  exact ⟨by decide, rfl⟩

/-- C1 (amended): for every frame-acquisition error, transient
(`SurfaceLost`/`SurfaceTimeout`) or not, the render loop panics with the
diagnostic `Fail to request next swap chain texture`; the error is never
absorbed and the tick is never skipped. -/
theorem redrawTick_error_panics (e : SurfaceError) :
    redrawTick (.error e) =
      TickOutcome.panicked ("Fail to request next swap chain texture") := by
  cases e <;> rfl

/-! ## Startup variant dispatch (C6) -/

/-- Result of the `match args.version.as_str()` dispatch in
`t02-triangle::main`. -/
inductive DispatchOutcome where
  | runLoop (version : String)
  | invalid (diagnostic : String)
  deriving DecidableEq

/-- The `match` in `t02-triangle::main`: `"v1"`/`"v2"`/`"v3"` start the
corresponding render loop; any other string hits the `_` arm, whose whole body
is `info!("invalid version, exit")`. -/
def dispatchVersion (version : String) : DispatchOutcome :=
  if version = "v1" then .runLoop version
  else if version = "v2" then .runLoop version
  else if version = "v3" then .runLoop version
  else .invalid ("invalid version, exit")

/-- Whether a dispatch outcome starts a render loop. -/
def DispatchOutcome.loopStarted : DispatchOutcome → Bool
  | .runLoop _ => true
  | .invalid _ => false

/-- Process exit status implied by each outcome of `main`: after the `_` arm
logs its diagnostic, `main` falls off the end of the `match` and returns `()`,
so the process exits with status 0; the recognized arms run the event loop,
which also exits the process normally on close. No arm calls
`std::process::exit` with a non-zero code and no arm panics. -/
def DispatchOutcome.exitStatus : DispatchOutcome → Nat
  | .runLoop _ => 0
  | .invalid _ => 0

/-- Counterexample to C6 as stated: an unrecognized variant identifier
produces the diagnostic and starts no render loop, but the process exits with
status 0, not a non-zero status. -/
theorem dispatchVersion_unknown_exit_zero :
    dispatchVersion "v9" = DispatchOutcome.invalid ("invalid version, exit") ∧
    (dispatchVersion "v9").loopStarted = false ∧
    (dispatchVersion "v9").exitStatus = 0 := by
  refine ⟨by decide, by decide, by decide⟩

/-- C6 (amended): when the startup variant identifier matches none of the
recognized variants `v1`, `v2`, `v3`, no render loop is started and the
process terminates with the diagnostic `invalid version, exit` — but it exits
normally with status 0, not with a non-zero status. -/
theorem dispatchVersion_unknown (v : String)
    (h1 : v ≠ "v1") (h2 : v ≠ "v2") (h3 : v ≠ "v3") :
    dispatchVersion v = DispatchOutcome.invalid ("invalid version, exit") ∧
    (dispatchVersion v).loopStarted = false ∧
    (dispatchVersion v).exitStatus = 0 := by
  simp [dispatchVersion, h1, h2, h3, DispatchOutcome.loopStarted,
    DispatchOutcome.exitStatus]

/-- Witness for `dispatchVersion_unknown` at the concrete identifier `v9`. -/
theorem dispatchVersion_unknown_witness :
    ("v9" ≠ "v1") ∧ ("v9" ≠ "v2") ∧ ("v9" ≠ "v3") ∧
    (dispatchVersion "v9" = DispatchOutcome.invalid ("invalid version, exit") ∧
     (dispatchVersion "v9").loopStarted = false ∧
     (dispatchVersion "v9").exitStatus = 0) :=
  ⟨by decide, by decide, by decide,
   dispatchVersion_unknown "v9" (by decide) (by decide) (by decide)⟩

/-! ## Surface configuration and resize (C2) -/

/-- The fields of `wgpu::SurfaceConfiguration` that the resize handler
touches, plus the presentation format it was built with. -/
structure SurfaceConfiguration where
  format : Nat
  width : Nat
  height : Nat
  deriving DecidableEq

/-- The configuration currently held by the surface: the argument of the most
recent `surface.configure(&device, &config)` call. -/
structure SurfaceState where
  configured : SurfaceConfiguration
  deriving DecidableEq

/-- Model of `surface.configure(&device, &config)`: the surface adopts `config`. -/
def configureSurface (_s : SurfaceState) (c : SurfaceConfiguration) :
    SurfaceState :=
  { configured := c }

/-- Dimensions of the texture returned by a successful
`surface.get_current_texture()`. Modelled from the spec: wgpu is an external
collaborator here, and its contract (spec §3 Surface, §4.2) is that an acquired
frame has the dimensions of the surface's current configuration. -/
def acquire_frame (s : SurfaceState) : Nat × Nat :=
  (s.configured.width, s.configured.height)

/-- The `WindowEvent::Resized(size)` arm shared by `t02-triangle`,
`t04-texture` and `t006-coord`: set `config.width`/`config.height` to the new
size, call `surface.configure(&device, &config)` in the same arm (before any
later frame acquisition), then `window.request_redraw()`. Returns the updated
config, surface state, and whether a redraw was requested. -/
def on_resize (config : SurfaceConfiguration) (s : SurfaceState)
    (w h : Nat) : SurfaceConfiguration × SurfaceState × Bool :=
  let config1 : SurfaceConfiguration := { config with width := w, height := h }
  let s1 := configureSurface s config1
  (config1, s1, true)

/-- C2: for every window size `W×H`, the resize handler updates the
configuration's width and height to `W` and `H` and reconfigures the surface
in the same event arm, so a subsequent frame acquisition returns a frame of
dimensions `(W, H)`; it also requests a redraw. -/
theorem on_resize_acquire (config : SurfaceConfiguration) (s : SurfaceState)
    (w h : Nat) :
    (on_resize config s w h).1.width = w ∧
    (on_resize config s w h).1.height = h ∧
    acquire_frame (on_resize config s w h).2.1 = (w, h) ∧
    (on_resize config s w h).2.2 = true := by
  refine ⟨rfl, rfl, rfl, rfl⟩

/-! ## Render-pass command recording (C9) -/

/-- The commands recorded on a render pass in one redraw tick. Ranges such as
`0..3` are modelled by their length. -/
inductive RenderCommand where
  | setPipeline
  | setBindGroup (slot : Nat)
  | setVertexBuffer (slot : Nat)
  | setIndexBuffer
  | draw (vertices instanceCount : Nat)
  | drawIndexed (indices instanceCount : Nat)
  deriving DecidableEq

/-- Whether a command is a draw call. -/
def RenderCommand.isDraw : RenderCommand → Bool
  | .draw _ _ => true
  | .drawIndexed _ _ => true
  | _ => false

/-- Model of `t04-texture::create_vertices` (and identically
`t006-coord::create_vertices`): four quad vertices and the index list
`[0, 1, 3, 1, 2, 3]`. Only the data needed by the claims is carried: vertex
positions/texture coordinates and the `u16` index values. -/
def create_vertices : List (Vec3 × (ℝ × ℝ)) × List Nat :=
  ([(⟨-0.5, -0.5, 0⟩, (0, 1)),
    (⟨0.5, -0.5, 0⟩, (1, 1)),
    (⟨0.5, 0.5, 0⟩, (1, 0)),
    (⟨-0.5, 0.5, 0⟩, (0, 0))],
   [0, 1, 3, 1, 2, 3])

/-- The render pass recorded each tick by `t02-triangle::run_v1`:
`set_pipeline` then `draw(0..3, 0..1)`. -/
def trianglePassCommands : List RenderCommand :=
  [.setPipeline, .draw 3 1]

/-- The render pass recorded each tick by `t04-texture::run`: `set_pipeline`,
`set_bind_group(0, ..)`, `set_vertex_buffer(0, ..)`, `set_index_buffer(..)`,
then `draw_indexed(0..indices.len() as u32, 0, 0..1)`. -/
def texturedQuadPassCommands : List RenderCommand :=
  [.setPipeline, .setBindGroup 0, .setVertexBuffer 0, .setIndexBuffer,
   .drawIndexed create_vertices.2.length 1]

/-- C9: each redraw tick records exactly one draw call with one instance
covering the full vertex or index count: the static triangle pass draws
exactly 3 vertices and 1 instance, and the textured quad pass, whose index
list is `[0, 1, 3, 1, 2, 3]`, issues `draw_indexed` with exactly 6 indices
and 1 instance. -/
theorem one_draw_call_per_tick :
    trianglePassCommands.countP (fun c => c.isDraw) = 1 ∧
    trianglePassCommands.contains (RenderCommand.draw 3 1) = true ∧
    texturedQuadPassCommands.countP (fun c => c.isDraw) = 1 ∧
    create_vertices.2 = [0, 1, 3, 1, 2, 3] ∧
    texturedQuadPassCommands.contains
      (RenderCommand.drawIndexed create_vertices.2.length 1) = true ∧
    create_vertices.2.length = 6 := by
  refine ⟨by decide, by decide, by decide, rfl, by decide, rfl⟩

/-! ## Transform-matrix byte serialization (C8) -/

/-- Little-endian byte serialization of one 32-bit word: the in-memory bytes
of one `f32`, identified with its bit pattern. -/
def word32ToBytes (w : Nat) : List Nat :=
  [w % 256, w / 256 % 256, w / 256 ^ 2 % 256, w / 256 ^ 3 % 256]

/-- Reassembling one 32-bit word from four bytes. -/
def bytesToWord32 (b0 b1 b2 b3 : Nat) : Nat :=
  b0 + 256 * b1 + 256 ^ 2 * b2 + 256 ^ 3 * b3

/-- Model of `bytemuck::cast_slice(mat4.as_ref())`: the byte payload of the transform
buffer upload — the concatenated little-endian bytes of the 16 column-major
`f32` words of the matrix. -/
def mat4ToBytes (words : List Nat) : List Nat :=
  words.flatMap word32ToBytes

/-- Re-interpreting the byte payload as a sequence of 32-bit `f32` words,
four bytes at a time. -/
def bytesToWords : List Nat → List Nat
  | b0 :: b1 :: b2 :: b3 :: rest => bytesToWord32 b0 b1 b2 b3 :: bytesToWords rest
  | _ => []

/-- Round trip on a single word. -/
theorem word32_roundtrip (w : Nat) (h : w < 2 ^ 32) :
    bytesToWord32 (w % 256) (w / 256 % 256) (w / 256 ^ 2 % 256)
      (w / 256 ^ 3 % 256) = w := by
  unfold bytesToWord32
  omega

/-- C8: serializing the 16 column-major 32-bit words of a Transform's 4×4
matrix to bytes and re-interpreting those bytes as 32-bit words reproduces the
original words exactly, bit for bit; the payload of a 16-word matrix is
64 bytes. -/
theorem mat4_bytes_roundtrip (words : List Nat)
    (h : ∀ w ∈ words, w < 2 ^ 32) :
    bytesToWords (mat4ToBytes words) = words ∧
    (words.length = 16 → (mat4ToBytes words).length = 64) := by
  constructor
  · induction words with
    | nil => rfl
    | cons w rest ih =>
        have hw : w < 2 ^ 32 := h w (List.mem_cons_self w rest)
        have hrest : ∀ x ∈ rest, x < 2 ^ 32 := fun x hx =>
          h x (List.mem_cons_of_mem w hx)
        have h1 : mat4ToBytes (w :: rest) = word32ToBytes w ++ mat4ToBytes rest := by
          simp [mat4ToBytes]
        rw [h1]
        simp only [word32ToBytes, List.cons_append, List.nil_append,
          bytesToWords]
        rw [word32_roundtrip w hw]
        show w :: bytesToWords (mat4ToBytes rest) = w :: rest
        rw [ih hrest]
  · intro hlen
    have : ∀ l : List Nat, (mat4ToBytes l).length = 4 * l.length := by
      intro l
      induction l with
      | nil => rfl
      | cons w rest ih =>
          simp [mat4ToBytes, word32ToBytes, List.flatMap_cons] at ih ⊢
          omega
    rw [this, hlen]

/-- Witness for `mat4_bytes_roundtrip` on a concrete 16-word matrix payload
(the bit patterns of an `f32` identity matrix: `1.0f32 = 0x3F800000`). -/
theorem mat4_bytes_roundtrip_witness :
    (∀ w ∈ ([0x3F800000, 0, 0, 0, 0, 0x3F800000, 0, 0, 0, 0, 0x3F800000, 0,
             0, 0, 0, 0x3F800000] : List Nat), w < 2 ^ 32) ∧
    (bytesToWords (mat4ToBytes [0x3F800000, 0, 0, 0, 0, 0x3F800000, 0, 0,
        0, 0, 0x3F800000, 0, 0, 0, 0, 0x3F800000]) =
      [0x3F800000, 0, 0, 0, 0, 0x3F800000, 0, 0, 0, 0, 0x3F800000, 0,
       0, 0, 0, 0x3F800000] ∧
     (([0x3F800000, 0, 0, 0, 0, 0x3F800000, 0, 0, 0, 0, 0x3F800000, 0,
        0, 0, 0, 0x3F800000] : List Nat).length = 16 →
       (mat4ToBytes [0x3F800000, 0, 0, 0, 0, 0x3F800000, 0, 0, 0, 0,
          0x3F800000, 0, 0, 0, 0, 0x3F800000]).length = 64)) :=
  ⟨by decide,
   mat4_bytes_roundtrip
     [0x3F800000, 0, 0, 0, 0, 0x3F800000, 0, 0, 0, 0, 0x3F800000, 0,
      0, 0, 0, 0x3F800000] (by decide)⟩

/-! ## Transform to matrix (C5) -/

/-- Model of `Transform::to_mat4`, i.e. glam's
`Mat4::from_scale_rotation_translation(scale, rotation, translation)`:
the three rotation columns derived from the quaternion (`quat_to_axes`),
each multiplied by the matching scale component, with the translation as the
fourth column. Entry `(i, j)` is row `i`, column `j`. -/
def Transform.to_mat4 (t : Transform) : Matrix (Fin 4) (Fin 4) ℝ :=
  let q := t.rotation
  let x2 := q.x + q.x
  let y2 := q.y + q.y
  let z2 := q.z + q.z
  let xx := q.x * x2
  let xy := q.x * y2
  let xz := q.x * z2
  let yy := q.y * y2
  let yz := q.y * z2
  let zz := q.z * z2
  let wx := q.w * x2
  let wy := q.w * y2
  let wz := q.w * z2
  Matrix.of
    ![![(1 - (yy + zz)) * t.scale.x, (xy - wz) * t.scale.y,
        (xz + wy) * t.scale.z, t.translation.x],
      ![(xy + wz) * t.scale.x, (1 - (xx + zz)) * t.scale.y,
        (yz - wx) * t.scale.z, t.translation.y],
      ![(xz - wy) * t.scale.x, (yz + wx) * t.scale.y,
        (1 - (xx + yy)) * t.scale.z, t.translation.z],
      ![0, 0, 0, 1]]

/-- The elementary rotation matrix of a quaternion: glam's `quat_to_axes`
columns with no scale and no translation (`Mat4::from_quat`). -/
def rotationMat (q : Quat) : Matrix (Fin 4) (Fin 4) ℝ :=
  let x2 := q.x + q.x
  let y2 := q.y + q.y
  let z2 := q.z + q.z
  let xx := q.x * x2
  let xy := q.x * y2
  let xz := q.x * z2
  let yy := q.y * y2
  let yz := q.y * z2
  let zz := q.z * z2
  let wx := q.w * x2
  let wy := q.w * y2
  let wz := q.w * z2
  Matrix.of
    ![![1 - (yy + zz), xy - wz, xz + wy, 0],
      ![xy + wz, 1 - (xx + zz), yz - wx, 0],
      ![xz - wy, yz + wx, 1 - (xx + yy), 0],
      ![0, 0, 0, 1]]

/-- The elementary scale matrix (`Mat4::from_scale`). -/
def scaleMat (s : Vec3) : Matrix (Fin 4) (Fin 4) ℝ :=
  Matrix.of
    ![![s.x, 0, 0, 0],
      ![0, s.y, 0, 0],
      ![0, 0, s.z, 0],
      ![0, 0, 0, 1]]

/-- The elementary translation matrix (`Mat4::from_translation`). -/
def translationMat (v : Vec3) : Matrix (Fin 4) (Fin 4) ℝ :=
  Matrix.of
    ![![1, 0, 0, v.x],
      ![0, 1, 0, v.y],
      ![0, 0, 1, v.z],
      ![0, 0, 0, 1]]

/-- C5: for every Transform value, regardless of how its fields were built,
the 4×4 matrix produced for upload equals the translation matrix times the
rotation matrix times the scale matrix — scale applied first, then rotation,
then translation. -/
theorem to_mat4_decomposition (t : Transform) :
    t.to_mat4 =
      translationMat t.translation * rotationMat t.rotation *
        scaleMat t.scale := by
  ext i j
  fin_cases i <;> fin_cases j <;>
    simp [Transform.to_mat4, translationMat, rotationMat, scaleMat,
      Matrix.mul_apply, Fin.sum_univ_four, Matrix.vecHead, Matrix.vecTail,
      Function.comp] <;> ring

/-! ## Accumulated rotation and axis-angle recovery (C7) -/

/-- Model of `glam::Vec3::length`. -/
noncomputable def Vec3.length (v : Vec3) : ℝ :=
  Real.sqrt (v.x * v.x + v.y * v.y + v.z * v.z)

/-- The two-argument arctangent of `f32::atan2(y, x)` (the C-library
`atan2f`), modelled over the reals. -/
noncomputable def atan2 (y x : ℝ) : ℝ :=
  if 0 < x then Real.arctan (y / x)
  else if x < 0 then
    (if 0 ≤ y then Real.arctan (y / x) + π else Real.arctan (y / x) - π)
  else
    (if 0 < y then π / 2 else if y < 0 then -(π / 2) else 0)

/-- Modelled from the spec: the repository never converts a quaternion back to
axis-angle form; the spec's testable property assumes such a conversion. This
is the standard recovery also implemented by `glam::Quat::to_axis_angle`:
for a nonzero vector part, axis `v / |v|` and angle `2 * atan2(|v|, w)`;
for a zero vector part (glam: length below `1e-8`), `(X, 0)`. -/
noncomputable def Quat.to_axis_angle (q : Quat) : Vec3 × ℝ :=
  let v : Vec3 := ⟨q.x, q.y, q.z⟩
  let l := v.length
  if 0 < l then (⟨q.x / l, q.y / l, q.z / l⟩, 2 * atan2 l q.w)
  else (Vec3.X, 0)

/-- The repeated per-tick rotation of C7: starting from the identity
transform, apply `Transform::rotate_x` once per tick with the given deltas. -/
noncomputable def accumTicks (deltas : List ℝ) : Transform :=
  deltas.foldl (fun t d => t.rotate_x d) Transform.new

/-- The axis-angle quaternion at angle 0 is the identity. -/
theorem from_axis_angle_zero (axis : Vec3) :
    Quat.from_axis_angle axis 0 = Quat.IDENTITY := by
  simp [Quat.from_axis_angle, Quat.IDENTITY]

/-- Right multiplication by the identity quaternion. -/
theorem Quat.mul_IDENTITY (q : Quat) : q.mul Quat.IDENTITY = q := by
  simp [Quat.mul, Quat.IDENTITY]

/-- Left multiplication by the identity quaternion. -/
theorem Quat.IDENTITY_mul (q : Quat) : Quat.IDENTITY.mul q = q := by
  simp [Quat.mul, Quat.IDENTITY]

/-- The Hamilton product is associative. -/
theorem Quat.mul_assoc (a b c : Quat) :
    (a.mul b).mul c = a.mul (b.mul c) := by
  simp only [Quat.mul, Quat.mk.injEq]
  refine ⟨by ring, by ring, by ring, by ring⟩

/-- Axis-angle quaternions about the same axis `X` compose additively. -/
theorem from_axis_angle_X_mul (a b : ℝ) :
    (Quat.from_axis_angle Vec3.X a).mul (Quat.from_axis_angle Vec3.X b) =
      Quat.from_axis_angle Vec3.X (a + b) := by
  have h : (a + b) / 2 = a / 2 + b / 2 := by ring
  simp only [Quat.from_axis_angle, Vec3.X, Quat.mul, Quat.mk.injEq, h,
    Real.sin_add, Real.cos_add]
  refine ⟨by ring, by ring, by ring, by ring⟩

/-- Folding `rotate_x` over a list of deltas multiplies a single axis-angle
quaternion for the total angle into the starting rotation. -/
theorem foldl_rotate_x (ds : List ℝ) (t : Transform) :
    (ds.foldl (fun a d => a.rotate_x d) t).rotation =
      t.rotation.mul (Quat.from_axis_angle Vec3.X ds.sum) := by
  induction ds generalizing t with
  | nil =>
      rw [List.foldl_nil, List.sum_nil, from_axis_angle_zero,
        Quat.mul_IDENTITY]
  | cons d ds ih =>
      rw [List.foldl_cons, List.sum_cons, ih (t.rotate_x d)]
      show (t.rotation.mul (Quat.from_axis_angle Vec3.X d)).mul
          (Quat.from_axis_angle Vec3.X ds.sum) = _
      rw [Quat.mul_assoc, from_axis_angle_X_mul]

/-- The accumulated rotation after deltas summing to `T` is the axis-angle
quaternion for `T` about `X`. -/
theorem accumTicks_rotation (deltas : List ℝ) :
    (accumTicks deltas).rotation =
      Quat.from_axis_angle Vec3.X deltas.sum := by
  rw [accumTicks, foldl_rotate_x]
  show Quat.IDENTITY.mul _ = _
  rw [Quat.IDENTITY_mul]

/-- On `(0, π)`, `atan2` inverts the sine/cosine pair. -/
theorem atan2_sin_cos {θ : ℝ} (h0 : 0 < θ) (hπ : θ < π) :
    atan2 (Real.sin θ) (Real.cos θ) = θ := by
  by_cases hc : 0 < Real.cos θ
  · have hθ2 : θ < π / 2 := by
      by_contra hge
      push_neg at hge
      have : Real.cos θ ≤ 0 :=
        Real.cos_nonpos_of_pi_div_two_le_of_le hge (by linarith [Real.pi_pos])
      linarith
    rw [atan2, if_pos hc, ← Real.tan_eq_sin_div_cos,
      Real.arctan_tan (by linarith [Real.pi_pos]) hθ2]
  · by_cases hc0 : Real.cos θ = 0
    · have hθ : θ = π / 2 := by
        rcases Real.cos_eq_zero_iff.mp hc0 with ⟨k, hk⟩
        have hpi := Real.pi_pos
        have hk0 : k = 0 := by
          rcases lt_trichotomy k 0 with hlt | heq | hgt
          · exfalso
            have : (k : ℝ) ≤ -1 := by exact_mod_cast Int.le_sub_one_of_lt hlt
            nlinarith
          · exact heq
          · exfalso
            have : (1 : ℝ) ≤ (k : ℝ) := by exact_mod_cast hgt
            nlinarith
        rw [hk0] at hk
        rw [hk]; ring
      subst hθ
      rw [Real.sin_pi_div_two, Real.cos_pi_div_two]
      norm_num [atan2]
    · have hc2 : Real.cos θ < 0 := lt_of_le_of_ne (not_lt.mp hc) hc0
      have hs : 0 < Real.sin θ := Real.sin_pos_of_pos_of_lt_pi h0 hπ
      have hθgt : π / 2 < θ := by
        by_contra hle
        push_neg at hle
        have : 0 ≤ Real.cos θ :=
          Real.cos_nonneg_of_mem_Icc ⟨by linarith [Real.pi_pos], hle⟩
        linarith
      rw [atan2, if_neg (not_lt.mpr hc2.le), if_pos hc2, if_pos hs.le,
        ← Real.tan_eq_sin_div_cos, ← Real.tan_periodic.sub_eq θ,
        Real.arctan_tan (by linarith [Real.pi_pos]) (by linarith [Real.pi_pos])]
      ring

/-- C7 (amended): starting from the identity rotation and applying the
per-tick rotation repeatedly with deltas that sum to `T` with
`0 ≤ T < 2π`, the accumulated rotation converts back to axis-angle form
`(X, T)` — the angle equals `T`, which on this range is `T` modulo `2π`.
(For `T ≥ 2π` the recovered angle is in general not `T` modulo `2π`: the
conversion can return the complementary angle about the flipped axis, off by
far more than floating-point tolerance; see the counterexample.) -/
theorem accum_rotation_axis_angle (deltas : List ℝ)
    (h0 : 0 ≤ deltas.sum) (h2 : deltas.sum < 2 * π) :
    (accumTicks deltas).rotation.to_axis_angle = (Vec3.X, deltas.sum) := by
  rw [accumTicks_rotation]
  generalize hT : deltas.sum = T at h0 h2
  rcases eq_or_lt_of_le h0 with heq | hpos
  · subst heq
    simp [Quat.to_axis_angle, Quat.from_axis_angle, Vec3.X, Vec3.length]
  · have hhalf0 : 0 < T / 2 := by linarith
    have hhalfπ : T / 2 < π := by linarith
    have hs : 0 < Real.sin (T / 2) :=
      Real.sin_pos_of_pos_of_lt_pi hhalf0 hhalfπ
    have hq : Quat.from_axis_angle Vec3.X T =
        ⟨Real.sin (T / 2), 0, 0, Real.cos (T / 2)⟩ := by
      simp [Quat.from_axis_angle, Vec3.X]
    have hlen : Vec3.length ⟨Real.sin (T / 2), 0, 0⟩ = Real.sin (T / 2) := by
      unfold Vec3.length
      norm_num
      exact Real.sqrt_mul_self hs.le
    rw [hq]
    simp only [Quat.to_axis_angle, hlen]
    rw [if_pos hs]
    have hangle : atan2 (Real.sin (T / 2)) (Real.cos (T / 2)) = T / 2 :=
      atan2_sin_cos hhalf0 hhalfπ
    rw [hangle]
    simp [Vec3.X, div_self hs.ne', Prod.ext_iff]
    ring

/-- Witness for `accum_rotation_axis_angle` with two ticks of `π/2`,
summing to `T = π`. -/
theorem accum_rotation_axis_angle_witness :
    0 ≤ ([π / 2, π / 2] : List ℝ).sum ∧
    ([π / 2, π / 2] : List ℝ).sum < 2 * π ∧
    (accumTicks [π / 2, π / 2]).rotation.to_axis_angle =
      (Vec3.X, ([π / 2, π / 2] : List ℝ).sum) := by
  have h0 : 0 ≤ ([π / 2, π / 2] : List ℝ).sum := by
    simp [List.sum_cons, List.sum_nil]
    positivity
  have h2 : ([π / 2, π / 2] : List ℝ).sum < 2 * π := by
    simp [List.sum_cons, List.sum_nil]
    linarith [Real.pi_pos]
  exact ⟨h0, h2, accum_rotation_axis_angle [π / 2, π / 2] h0 h2⟩

/-- Counterexample to C7 as stated: with a single delta of `T = 5π/2`
(deltas summing to `T`), the accumulated rotation converted back to
axis-angle form has angle `3π/2`, while `T` modulo `2π` is `π/2`; the
discrepancy is exactly `π`, far beyond floating-point tolerance (and the
recovered axis is `-X`, not `X`). -/
theorem accum_rotation_angle_counterexample :
    (accumTicks [5 * π / 2]).rotation.to_axis_angle.2 = 3 * π / 2 ∧
    (accumTicks [5 * π / 2]).rotation.to_axis_angle.1 = ⟨-1, 0, 0⟩ ∧
    5 * π / 2 - 2 * π * ((⌊(5 * π / 2) / (2 * π)⌋ : ℤ) : ℝ) = π / 2 ∧
    (3 * π / 2 : ℝ) - π / 2 = π ∧
    (1 : ℝ) / 10 < π := by
  have hpi := Real.pi_pos
  have hsum : ([5 * π / 2] : List ℝ).sum = 5 * π / 2 := by simp
  have hrot : (accumTicks [5 * π / 2]).rotation =
      Quat.from_axis_angle Vec3.X (5 * π / 2) := by
    rw [accumTicks_rotation, hsum]
  have h54 : (5 * π / 2) / 2 = π + π / 4 := by ring
  have hsin : Real.sin ((5 * π / 2) / 2) = -(Real.sqrt 2 / 2) := by
    rw [h54, Real.sin_add, Real.sin_pi, Real.cos_pi, Real.sin_pi_div_four]
    ring
  have hcos : Real.cos ((5 * π / 2) / 2) = -(Real.sqrt 2 / 2) := by
    rw [h54, Real.cos_add, Real.sin_pi, Real.cos_pi, Real.cos_pi_div_four]
    ring
  have hsqrt2 : 0 < Real.sqrt 2 := Real.sqrt_pos.mpr (by norm_num)
  have hq : Quat.from_axis_angle Vec3.X (5 * π / 2) =
      ⟨-(Real.sqrt 2 / 2), 0, 0, -(Real.sqrt 2 / 2)⟩ := by
    simp [Quat.from_axis_angle, Vec3.X, hsin, hcos]
  have hsq : -(Real.sqrt 2 / 2) * -(Real.sqrt 2 / 2) = 1 / 2 := by
    have h2 : Real.sqrt 2 * Real.sqrt 2 = 2 := Real.mul_self_sqrt (by norm_num)
    nlinarith [h2]
  have hlen : Vec3.length ⟨-(Real.sqrt 2 / 2), 0, 0⟩ = Real.sqrt 2 / 2 := by
    unfold Vec3.length
    rw [show -(Real.sqrt 2 / 2) * -(Real.sqrt 2 / 2) + 0 * 0 + 0 * 0 =
        (Real.sqrt 2 / 2) ^ 2 by ring]
    exact Real.sqrt_sq (by positivity)
  have hlpos : 0 < Real.sqrt 2 / 2 := by positivity
  have hdiv : Real.sqrt 2 / 2 / -(Real.sqrt 2 / 2) = -1 := by
    rw [div_neg, div_self (by positivity : (Real.sqrt 2 / 2) ≠ 0)]
  have hatan : atan2 (Real.sqrt 2 / 2) (-(Real.sqrt 2 / 2)) = 3 * π / 4 := by
    rw [atan2, if_neg (by linarith), if_pos (by linarith), if_pos hlpos.le,
      hdiv, show (-1 : ℝ) = -(1 : ℝ) by ring, Real.arctan_neg,
      Real.arctan_one]
    ring
  have haa : (Quat.from_axis_angle Vec3.X (5 * π / 2)).to_axis_angle =
      (⟨-1, 0, 0⟩, 3 * π / 2) := by
    rw [hq]
    simp only [Quat.to_axis_angle, hlen]
    rw [if_pos hlpos, hatan]
    have hx : -(Real.sqrt 2 / 2) / (Real.sqrt 2 / 2) = -1 := by
      rw [neg_div, div_self (by positivity : (Real.sqrt 2 / 2) ≠ 0)]
    simp [hx, Prod.ext_iff]
    ring
  have hfloor : ((⌊(5 * π / 2) / (2 * π)⌋ : ℤ) : ℝ) = 1 := by
    have hval : (5 * π / 2) / (2 * π) = 5 / 4 := by
      field_simp
      ring
    have h1 : ⌊(5 / 4 : ℝ)⌋ = 1 := by
      rw [Int.floor_eq_iff] <;> norm_num
    rw [hval, h1, Int.cast_one]
  refine ⟨?_, ?_, ?_, by ring, by linarith [Real.pi_gt_three]⟩
  · rw [hrot, haa]
  · rw [hrot, haa]
  · rw [hfloor]
    ring
